import Mathlib

/-!
Verification of the options-chain data collection scripts.

Shallow embedding of the two pipelines of the repository:

* `OC` — Pipeline A (`src/oc.py`): brokerage-backed. Price oracle
  (`get_current_price_yf`), paginated contract discovery, batched snapshot
  enrichment, row assembly, batch orchestration (`fetch_multiple_tickers`).
* `YF` — Pipeline B (`src/yf_ochains.py`): free-provider-backed. Expiration
  enumeration and filtering, per-expiration chain fetch, post-processing
  (`get_option_chain`), batch orchestration (`run_multi_ticker_scrape`).

Modelling conventions: decimal prices are `ℚ`; Python `None` / pandas `NaN`
is `Option.none`; a raised exception is `Except.error ()`; datetimes are
rational seconds, calendar dates natural day numbers (a date at midnight is
`d * 86400` seconds). External providers are parameters (structures of
response data), so theorems quantify over all provider behaviours.
-/

/-- Python `int(x)` on a decimal: truncation toward zero.
`Int.tdiv` is T-division, which truncates toward zero like Python's `int`. -/
def pyInt (q : ℚ) : Int := q.num.tdiv q.den

namespace OC

/-- An option contract as returned by the brokerage discovery endpoint
(`alpaca` `OptionContract`: the fields `oc.py` reads are `symbol`,
`strike_price`, `expiration_date`, `type`, `open_interest`; the model has no
`volume` attribute, so `getattr(contract, 'volume', 0)` is `0`).
`open_interest` is optional in the SDK model, hence `Option ℚ`;
`typ` carries the `type.value` string (`"call"` / `"put"`). -/
structure Contract where
  symbol : String
  strike_price : ℚ
  expiration_date : Nat
  typ : String
  open_interest : Option ℚ
deriving DecidableEq, Repr

/-- A quote inside a snapshot (`latest_quote`): bid/ask may be `None`. -/
structure Quote where
  bid_price : Option ℚ
  ask_price : Option ℚ
deriving DecidableEq, Repr

/-- A trade inside a snapshot (`latest_trade`): price may be `None`. -/
structure Trade where
  price : Option ℚ
deriving DecidableEq, Repr

/-- A contract snapshot (`alpaca` `OptionSnapshot`: `latest_quote`,
`latest_trade`, `implied_volatility`; no `volume` / `open_interest`
attributes, so `getattr(snap, 'volume', 0)` and
`getattr(snap, 'open_interest', 0)` are `0`). -/
structure Snap where
  latest_quote : Option Quote
  latest_trade : Option Trade
  implied_volatility : Option ℚ
deriving DecidableEq, Repr

/-- One discovery response: `get_option_contracts` returns either a
`(contracts, page_token)` tuple or a bare contracts object. -/
inductive PageResult (α : Type) where
  | paged : List α → Option String → PageResult α
  | bare : List α → PageResult α
deriving DecidableEq, Repr

/-- The contracts carried by one discovery response. -/
def PageResult.page {α : Type} : PageResult α → List α
  | .paged cs _ => cs
  | .bare cs => cs

/-- Whether a discovery response carries a continuation token
(`page_token` truthy after unpacking: a bare result sets it to `None`). -/
def PageResult.hasToken {α : Type} : PageResult α → Bool
  | .paged _ (some _) => true
  | .paged _ none => false
  | .bare _ => false

/-- The pagination loop of `get_options_chain_snapshot` (`oc.py` lines
49–63): repeatedly call `get_option_contracts` (the successive responses,
each possibly an exception, are the input list), extend `all_contracts`
with the page, and stop as soon as the continuation token is absent.
An exception in any call is not caught and propagates. -/
def paginateE {α : Type} : List (Except Unit (PageResult α)) → Except Unit (List α)
  | [] => .ok []
  | r :: rest => do
    let pr ← r
    if pr.hasToken then
      let more ← paginateE rest
      pure (pr.page ++ more)
    else
      pure pr.page

/-- The batch starts `range(0, len(symbols), 20)` (`oc.py` line 72) and the
slices `symbols[i:i+20]` (line 73). `range(0, n, 20)` has `⌈n/20⌉ = (n+19)/20`
elements. -/
def batches {α : Type} (symbols : List α) : List (List α) :=
  (List.range ((symbols.length + 19) / 20)).map
    (fun k => (symbols.drop (20 * k)).take 20)

/-- The snapshot response for one batch: `get_option_snapshot` returns a
dict keyed by the requested symbols that have a snapshot. `getSnap` is the
provider's per-symbol snapshot data. -/
def batchSnapResponse (getSnap : String → Option Snap) (batch : List String) :
    List (String × Snap) :=
  batch.filterMap (fun s => (getSnap s).map (fun v => (s, v)))

/-- Insert one key/value pair into a dict (later writes win). -/
def dictInsert (m : String → Option Snap) (e : String × Snap) :
    String → Option Snap :=
  fun s => if s = e.1 then some e.2 else m s

/-- Python `dict.update`: insert every entry, in order. -/
def dictUpdate (m : String → Option Snap) (es : List (String × Snap)) :
    String → Option Snap :=
  es.foldl dictInsert m

/-- The snapshot-enrichment loop (`oc.py` lines 70–78): start from an empty
`all_snaps`, and for each batch either update with its response or — when
the request raises (`failed i = true` for batch index `i`) — catch, log and
skip it. -/
def allSnaps (getSnap : String → Option Snap) (failed : Nat → Bool)
    (symbols : List String) : String → Option Snap :=
  (batches symbols).enum.foldl
    (fun m p => if failed p.1 then m else dictUpdate m (batchSnapResponse getSnap p.2))
    (fun _ => none)

/-- One output row (`oc.py` lines 98–113). `iv` is `Option ℚ` because
`getattr(snap, 'implied_volatility', 0.0)` can be Python `None` when the
snapshot exists with a `None` value; the no-snapshot default is the number
`0.0`, i.e. `some 0`. -/
structure Row where
  ticker : String
  option_code : String
  strike : ℚ
  exp_date : Nat
  typ : String
  bid : ℚ
  ask : ℚ
  last_price : ℚ
  mid_price : ℚ
  volume : Int
  open_interest : Int
  iv : Option ℚ
deriving DecidableEq, Repr

/-- Python `x or 0.0` on an optional decimal: `None` and `0` are falsy. -/
def orZero (x : Option ℚ) : ℚ :=
  match x with
  | some v => if v = 0 then 0 else v
  | none => 0

/-- Python `a or b` where `a` is an optional decimal and `b` a decimal
(the `getattr(...) or getattr(...)` chains of `oc.py` lines 94–95). -/
def pyOr (a : Option ℚ) (b : ℚ) : ℚ :=
  match a with
  | some v => if v = 0 then b else v
  | none => b

/-- Row assembly for one contract (`oc.py` lines 84–113): defaults
`bid = ask = last_price = volume = open_interest = iv = 0.0`, overridden
from the snapshot when one exists. `volume` is
`getattr(contract, 'volume', 0) or getattr(snap, 'volume', 0)`, and neither
attribute exists in the SDK models, so it is `0 or 0 = 0`; `open_interest`
is `contract.open_interest or 0` for the same reason. -/
def mkRow (ticker : String) (c : Contract) (snap : Option Snap) : Row :=
  let bid : ℚ := match snap with
    | none => 0
    | some s => match s.latest_quote with
      | some q => orZero q.bid_price
      | none => 0
  let ask : ℚ := match snap with
    | none => 0
    | some s => match s.latest_quote with
      | some q => orZero q.ask_price
      | none => 0
  let last_price : ℚ := match snap with
    | none => 0
    | some s => match s.latest_trade with
      | some t => orZero t.price
      | none => 0
  let volume : ℚ := match snap with
    | none => 0
    | some _ => 0
  let open_interest : ℚ := match snap with
    | none => 0
    | some _ => pyOr c.open_interest 0
  let iv : Option ℚ := match snap with
    | none => some 0
    | some s => s.implied_volatility
  { ticker := ticker
    option_code := c.symbol
    strike := c.strike_price
    exp_date := c.expiration_date
    typ := c.typ.toUpper
    bid := bid
    ask := ask
    last_price := last_price
    mid_price := if 0 < bid ∨ 0 < ask then (bid + ask) / 2 else 0
    volume := pyInt volume
    open_interest := pyInt open_interest
    iv := iv }

/-- The assembly loop (`oc.py` lines 84–113): one row per discovered
contract, in discovery order, joined with `all_snaps.get(contract.symbol)`. -/
def assembleRows (ticker : String) (contracts : List Contract)
    (snapsDict : String → Option Snap) : List Row :=
  contracts.map (fun c => mkRow ticker c (snapsDict c.symbol))

/-- The Yahoo price provider as seen by `get_current_price_yf`:
`fast` is `fast_info.last_price` (which can raise, or be `None`, or a
value), `hist` is `history(period="1d")["Close"].iloc[-1]` (which raises on
an empty history or a network error). -/
structure PriceProvider where
  fast : Except Unit (Option ℚ)
  hist : Except Unit ℚ
deriving Repr

/-- The body of the `try` block of `get_current_price_yf` (`oc.py` lines
22–26): take the fast price; if it is `None` or non-positive, take the
daily close instead. -/
def priceBody (p : PriceProvider) : Except Unit ℚ :=
  match p.fast with
  | .error e => .error e
  | .ok (some v) => if v ≤ 0 then p.hist else .ok v
  | .ok none => p.hist

/-- The price oracle `get_current_price_yf` (`oc.py` lines 19–29): the `try` body, with any
exception caught and replaced (with a warning) by the fallback `90.0`. -/
def get_current_price_yf (p : PriceProvider) : ℚ :=
  match priceBody p with
  | .ok v => v
  | .error _ => 90

/-- Everything one ticker's run of Pipeline A consumes from the outside:
the Yahoo price data, the successive discovery responses, the per-symbol
snapshot data, and which snapshot batches raise. -/
structure ProviderA where
  price : PriceProvider
  discovery : List (Except Unit (PageResult Contract))
  getSnap : String → Option Snap
  snapFail : Nat → Bool

/-- The per-ticker fetch `get_options_chain_snapshot` (`oc.py` lines 31–119): price lookup
(never raises), pagination (uncaught, may raise), empty-result early return,
truncation to the first 50 contracts for snapshot enrichment, batched
snapshot fetch with per-batch exception handling, and row assembly over all
discovered contracts. The strike/expiry window is part of the discovery
request and is reflected in the provider's responses. -/
def get_options_chain_snapshot (ticker : String) (p : ProviderA) :
    Except Unit (List Row) := do
  let _current_price := get_current_price_yf p.price
  let all_contracts ← paginateE p.discovery
  if all_contracts.isEmpty then
    pure []
  else
    let symbols := (all_contracts.take 50).map (fun c => c.symbol)
    let snapsDict := allSnaps p.getSnap p.snapFail symbols
    pure (assembleRows ticker all_contracts snapsDict)

/-- What the orchestrator does for one ticker: either logs `No data` and
writes nothing, or writes one CSV with the rows. -/
inductive EventA where
  | noData (ticker : String)
  | saved (ticker : String) (rows : List Row)
deriving DecidableEq, Repr

/-- The batch orchestrator `fetch_multiple_tickers` (`oc.py` lines 121–132): iterate the tickers
in order; an empty frame is logged and skipped, otherwise the CSV is
written. The per-ticker call is not wrapped in a `try`, so an exception
escaping `get_options_chain_snapshot` propagates and ends the loop. -/
def fetch_multiple_tickers (prov : String → ProviderA) :
    List String → Except Unit (List EventA)
  | [] => .ok []
  | t :: ts => do
    let df ← get_options_chain_snapshot t (prov t)
    let ev := if df.isEmpty then EventA.noData t else EventA.saved t df
    let rest ← fetch_multiple_tickers prov ts
    pure (ev :: rest)

end OC

namespace YF

/-- One row of a yfinance calls/puts frame: the native columns
`yf_ochains.py` uses. Every market column can be `NaN` (`Option.none`);
a wholly absent column is represented by the per-expiration error flag,
since reading it would raise inside the per-expiration `try`. -/
structure YFContract where
  contractSymbol : String
  strike : Option ℚ
  bid : Option ℚ
  ask : Option ℚ
  lastPrice : Option ℚ
  volume : Option ℚ
  openInterest : Option ℚ
  impliedVolatility : Option ℚ
deriving DecidableEq, Repr

/-- One row after rename and derivation (`yf_ochains.py` lines 54–85), before
the final post-processing: all market fields still optional (`NaN`-able). -/
structure RawRow where
  ticker : String
  option_code : String
  strike : Option ℚ
  exp_date : Nat
  typ : String
  bid : Option ℚ
  ask : Option ℚ
  last_price : Option ℚ
  mid_price : Option ℚ
  volume : Option ℚ
  open_interest : Option ℚ
  iv : Option ℚ
deriving DecidableEq, Repr

/-- One row after post-processing (`yf_ochains.py` lines 100–103): strike
present, `iv` filled, `volume` / `open_interest` integers. -/
structure PostRow where
  ticker : String
  option_code : String
  strike : ℚ
  exp_date : Nat
  typ : String
  bid : Option ℚ
  ask : Option ℚ
  last_price : Option ℚ
  mid_price : Option ℚ
  volume : Int
  open_interest : Int
  iv : ℚ
deriving DecidableEq, Repr

/-- Per-row effect of the column operations of `yf_ochains.py` lines 54–75:
type/expiry tagging, ticker stamping, renames, and
`mid_price = (bid + ask) / 2` — an unconditional pandas column expression,
so the result is `NaN` whenever `bid` or `ask` is `NaN`. -/
def buildRow (ticker : String) (typ : String) (exp : Nat) (c : YFContract) :
    RawRow :=
  { ticker := ticker
    option_code := c.contractSymbol
    strike := c.strike
    exp_date := exp
    typ := typ
    bid := c.bid
    ask := c.ask
    last_price := c.lastPrice
    mid_price := match c.bid, c.ask with
      | some b, some a => some ((b + a) / 2)
      | _, _ => none
    volume := c.volume
    open_interest := c.openInterest
    iv := c.impliedVolatility }

/-- The calls and puts frames one `option_chain(exp_date)` call returns. -/
structure ExpData where
  calls : List YFContract
  puts : List YFContract
deriving DecidableEq, Repr

/-- One expiration's rows (`yf_ochains.py` lines 54–62): calls tagged
`CALL`, puts tagged `PUT`, concatenated in that order. -/
def mkExpRows (ticker : String) (exp : Nat) (d : ExpData) : List RawRow :=
  d.calls.map (buildRow ticker "CALL" exp) ++ d.puts.map (buildRow ticker "PUT" exp)

/-- Per-row effect of the post-processing (`yf_ochains.py` lines 100–103):
`dropna(subset=["strike"])` drops the row when `strike` is `NaN`;
`iv.fillna(0)`; `volume.fillna(0).astype(int)` and the same for
`open_interest` (pandas `astype(int)` truncates toward zero). -/
def postRow (r : RawRow) : Option PostRow :=
  r.strike.map (fun s =>
    { ticker := r.ticker
      option_code := r.option_code
      strike := s
      exp_date := r.exp_date
      typ := r.typ
      bid := r.bid
      ask := r.ask
      last_price := r.last_price
      mid_price := r.mid_price
      volume := pyInt (r.volume.getD 0)
      open_interest := pyInt (r.open_interest.getD 0)
      iv := r.iv.getD 0 })

/-- The post-processing over the concatenated frame. -/
def postProcess (rows : List RawRow) : List PostRow :=
  rows.filterMap postRow

/-- The expiration filter (`yf_ochains.py` lines 37–42): when a horizon is
set, `cutoff_date = datetime.now() + timedelta(days=max_expiry_days)` and an
expiration string is kept iff its parsed date (midnight, `d * 86400`
seconds) is `≤ cutoff_date`; with no horizon every expiration is kept. -/
def filterExpirations (expirations : List Nat) (now : ℚ) :
    Option Nat → List Nat
  | none => expirations
  | some m => expirations.filter (fun d => (d : ℚ) * 86400 ≤ now + (m : ℚ) * 86400)

/-- Everything one ticker's run of Pipeline B consumes from the outside:
whether the initial provider access raises (`tickerFail`), the expiration
list, and each expiration's chain fetch (value or exception). -/
structure ProviderB where
  tickerFail : Bool
  expirations : List Nat
  chains : Nat → Except Unit ExpData

/-- The per-ticker fetch `YahooOptionsChainFetcher.get_option_chain` (`yf_ochains.py` lines
25–113): the outer `try` catches any whole-ticker failure and returns an
empty frame; an empty expiration list returns an empty frame; otherwise the
expirations are filtered to the horizon, each is fetched inside its own
`try` (an exception is logged and the expiration skipped), the per-expiration
frames are concatenated and post-processed. When every expiration failed,
`all_options` is empty and an empty frame is returned. -/
def get_option_chain (ticker : String) (p : ProviderB) (now : ℚ)
    (max_expiry_days : Option Nat) : List PostRow :=
  if p.tickerFail then []
  else if p.expirations.isEmpty then []
  else
    let exps := filterExpirations p.expirations now max_expiry_days
    let all_options := exps.filterMap (fun e =>
      match p.chains e with
      | .error _ => none
      | .ok d => some (mkExpRows ticker e d))
    if all_options.isEmpty then []
    else postProcess all_options.flatten

/-- What the orchestrator does for one ticker: either logs `No data
retrieved` and writes nothing, or writes one CSV with the rows. -/
inductive EventB where
  | noData (ticker : String)
  | saved (ticker : String) (rows : List PostRow)
deriving DecidableEq, Repr

/-- The batch orchestrator `run_multi_ticker_scrape` (`yf_ochains.py` lines 145–163): iterate the
tickers in order with `MAX_EXPIRY_DAYS = 45`; a non-empty frame is saved,
an empty one logged. `get_option_chain` never raises, so every ticker is
processed. -/
def run_multi_ticker_scrape (prov : String → ProviderB) (now : ℚ)
    (tickers : List String) : List EventB :=
  tickers.map (fun t =>
    let df := get_option_chain t (prov t) now (some 45)
    if df.isEmpty then .noData t else .saved t df)

end YF

namespace OC

/-- Whether some non-failed issued batch contains the symbol `s` — the
condition under which `allSnaps` holds data for `s`. -/
def snapHit (failed : Nat → Bool) (symbols : List String) (s : String) : Bool :=
  (batches symbols).enum.any (fun p => !failed p.1 && decide (s ∈ p.2))

/-- All seven market fields of a row are zero (`iv` is the number `0.0`). -/
def zeroMarket (r : Row) : Prop :=
  r.bid = 0 ∧ r.ask = 0 ∧ r.last_price = 0 ∧ r.mid_price = 0 ∧
    r.volume = 0 ∧ r.open_interest = 0 ∧ r.iv = some 0

end OC

/-! Concrete instances used to evaluate the theorems on closed inputs. -/

/-- A snapshot with non-zero market data throughout. -/
def wSnap : OC.Snap :=
  { latest_quote := some { bid_price := some 3, ask_price := some 4 }
    latest_trade := some { price := some (7 / 2) }
    implied_volatility := some (1 / 2) }

/-- 45 contract identifiers `"0" .. "44"`. -/
def w4ids : List String := (List.range 45).map (fun k => toString k)

/-- Exactly batch index 1 (identifiers `"20" .. "39"`) raises. -/
def w4failed : Nat → Bool := fun i => i == 1

/-- A provider holding a snapshot for every symbol. -/
def w4g : String → Option OC.Snap := fun _ => some wSnap

/-- A contract whose identifier `"25"` falls in the failed batch. -/
def w4c : OC.Contract :=
  { symbol := "25", strike_price := 100, expiration_date := 10, typ := "call"
    open_interest := some 2 }

/-- Two discovered contracts; only the first has a snapshot. -/
def w5contracts : List OC.Contract :=
  [{ symbol := "A", strike_price := 95, expiration_date := 12, typ := "call"
     open_interest := some 1 },
   { symbol := "B", strike_price := 105, expiration_date := 12, typ := "put"
     open_interest := none }]

/-- A Pipeline A provider: one discovery page holding `w5contracts`, a
snapshot only for symbol `"A"`, no batch failures. -/
def w5prov : OC.ProviderA :=
  { price := { fast := .ok (some 100), hist := .ok 100 }
    discovery := [.ok (.paged w5contracts none)]
    getSnap := fun s => if s = "A" then some wSnap else none
    snapFail := fun _ => false }

/-- The rows Pipeline A emits for `w5prov`. -/
def w5rows : List OC.Row :=
  OC.assembleRows "V" w5contracts
    (OC.allSnaps w5prov.getSnap w5prov.snapFail
      ((w5contracts.take 50).map (fun c => c.symbol)))

/-- 51 discovered contracts with identifiers `"0" .. "50"`. -/
def w10contracts : List OC.Contract :=
  (List.range 51).map (fun k =>
    { symbol := toString k, strike_price := (k : ℚ), expiration_date := 7
      typ := "call", open_interest := none })

/-- A Pipeline A provider: one bare discovery page of 51 contracts, and a
non-zero snapshot available for every symbol the pipeline could ask for. -/
def w10prov : OC.ProviderA :=
  { price := { fast := .ok (some 100), hist := .ok 100 }
    discovery := [.ok (.bare w10contracts)]
    getSnap := fun _ => some wSnap
    snapFail := fun _ => false }

/-- The rows Pipeline A emits for `w10prov`. -/
def w10rows : List OC.Row :=
  OC.assembleRows "NFLX" w10contracts
    (OC.allSnaps w10prov.getSnap w10prov.snapFail
      ((w10contracts.take 50).map (fun c => c.symbol)))

/-- A Pipeline A provider whose contract discovery raises. -/
def w2prov : OC.ProviderA :=
  { price := { fast := .ok (some 100), hist := .ok 100 }
    discovery := [.error ()]
    getSnap := fun _ => none
    snapFail := fun _ => false }

/-- A Pipeline A provider whose discovery returns zero contracts. -/
def w9provA : OC.ProviderA :=
  { price := { fast := .ok (some 100), hist := .ok 100 }
    discovery := [.ok (.bare [])]
    getSnap := fun _ => none
    snapFail := fun _ => false }

/-- A Pipeline B provider reporting no expiration dates. -/
def w9provB : YF.ProviderB :=
  { tickerFail := false
    expirations := []
    chains := fun _ => .error () }

/-- A Pipeline B provider whose every step succeeds: one expiration with
one call contract. -/
def w2provB : YF.ProviderB :=
  { tickerFail := false
    expirations := [3]
    chains := fun _ => .ok
      { calls := [{ contractSymbol := "C1", strike := some 100, bid := some 1
                    ask := some 2, lastPrice := some (3 / 2), volume := some 10
                    openInterest := some 20, impliedVolatility := some (1 / 4) }]
        puts := [] } }

/-- Two raw Pipeline B rows: one with a missing strike, one with missing
volume and iv. -/
def w8rows : List YF.RawRow :=
  [{ ticker := "V", option_code := "X0", strike := none, exp_date := 3
     typ := "CALL", bid := none, ask := none, last_price := none
     mid_price := none, volume := some 4, open_interest := some 5, iv := some 1 },
   { ticker := "V", option_code := "X1", strike := some 10, exp_date := 3
     typ := "PUT", bid := some 1, ask := some 2, last_price := some 1
     mid_price := some 1, volume := none, open_interest := some 5
     iv := none }]

/-- A raw Pipeline B row carrying a provider-supplied negative volume,
as `buildRow` produces it from the `w8prov` chain data. -/
def w8negRows : List YF.RawRow :=
  [{ ticker := "V", option_code := "N1", strike := some 50, exp_date := 2
     typ := "CALL", bid := some 1, ask := some 2, last_price := none
     mid_price := none, volume := some (-1), open_interest := some 2
     iv := none }]

/-- A Pipeline B chain row with a missing bid next to a positive ask. -/
def w1prov : YF.ProviderB :=
  { tickerFail := false
    expirations := [0]
    chains := fun _ => .ok
      { calls := [{ contractSymbol := "M1", strike := some 100, bid := none
                    ask := some 5, lastPrice := none, volume := some 3
                    openInterest := some 4, impliedVolatility := some (1 / 5) }]
        puts := [] } }

section Pagination

/-- Auxiliary: the pagination loop on a response sequence that raises no
exception, whose every non-final response carries a continuation token and
whose final response does not, accumulates the concatenation of the pages. -/
theorem paginateE_ok_cons {α : Type} (r : OC.PageResult α)
    (rest : List (Except Unit (OC.PageResult α))) :
    OC.paginateE (Except.ok r :: rest) =
      if r.hasToken then
        (fun more => r.page ++ more) <$> OC.paginateE rest
      else .ok r.page := rfl

theorem paginateE_ok_of_terminated {α : Type} :
    ∀ rs : List (OC.PageResult α),
      rs.dropLast.all OC.PageResult.hasToken = true →
      rs.getLast?.all (fun r => !r.hasToken) = true →
      OC.paginateE (rs.map Except.ok) = .ok ((rs.map OC.PageResult.page).flatten) := by
  intro rs
  induction rs with
  | nil => intro _ _; rfl
  | cons r rest ih =>
    intro hmid hlast
    cases rest with
    | nil =>
      have hr : r.hasToken = false := by simpa using hlast
      simp [paginateE_ok_cons, hr]
    | cons r2 rest2 =>
      have hr : r.hasToken = true := by
        have h := hmid
        rw [List.dropLast_cons₂] at h
        simp only [List.all_cons, Bool.and_eq_true] at h
        exact h.1
      have hmid2 : (r2 :: rest2).dropLast.all OC.PageResult.hasToken = true := by
        have h := hmid
        rw [List.dropLast_cons₂] at h
        simp only [List.all_cons, Bool.and_eq_true] at h
        exact h.2
      have hlast2 : (r2 :: rest2).getLast?.all (fun r => !r.hasToken) = true := by
        simpa [List.getLast?_cons_cons] using hlast
      rw [List.map_cons, paginateE_ok_cons, if_pos hr, ih hmid2 hlast2]
      simp

end Pagination

section Batching

/-- Auxiliary: enough 20-element slices starting at `0, 20, 40, ...`
reassemble the whole list. -/
theorem flatten_slices {α : Type} :
    ∀ (m : Nat) (l : List α), l.length ≤ 20 * m →
      ((List.range m).map (fun k => (l.drop (20 * k)).take 20)).flatten = l := by
  intro m
  induction m with
  | zero =>
    intro l hl
    simp at hl
    simp [hl]
  | succ n ih =>
    intro l hl
    rw [List.range_succ_eq_map]
    simp only [List.map_cons, List.map_map, List.flatten_cons, Nat.mul_zero,
      List.drop_zero]
    have hcomp : ∀ k : Nat, (l.drop (20 * (k + 1))).take 20
        = ((l.drop 20).drop (20 * k)).take 20 := by
      intro k
      rw [List.drop_drop]
      ring_nf
    have hmap : (List.range n).map ((fun k => (l.drop (20 * k)).take 20) ∘ (· + 1))
        = (List.range n).map (fun k => ((l.drop 20).drop (20 * k)).take 20) := by
      refine List.map_congr_left ?_
      intro k _
      simpa using hcomp k
    rw [hmap, ih (l.drop 20) (by simp; omega)]
    exact List.take_append_drop 20 l

/-- The issued batches reassemble exactly the submitted symbol list:
nothing is dropped, nothing is added, order is kept. -/
theorem batches_flatten {α : Type} (l : List α) :
    (OC.batches l).flatten = l := by
  apply flatten_slices
  omega

/-- The number of issued batches is `⌈n/20⌉`. -/
theorem batches_length {α : Type} (l : List α) :
    (OC.batches l).length = (l.length + 19) / 20 := by
  simp [OC.batches]

/-- Every issued batch has at most 20 elements. -/
theorem batches_size_le {α : Type} (l : List α) :
    ∀ b ∈ OC.batches l, b.length ≤ 20 := by
  intro b hb
  simp only [OC.batches, List.mem_map, List.mem_range] at hb
  obtain ⟨k, _, rfl⟩ := hb
  simp

end Batching

section Snapshots

/-- Updating a dict with one batch's snapshot response sets exactly the
batch symbols that have provider data, to that data. -/
theorem dictUpdate_batchSnapResponse (g : String → Option OC.Snap)
    (b : List String) (m : String → Option OC.Snap) (s : String) :
    OC.dictUpdate m (OC.batchSnapResponse g b) s
      = if s ∈ b ∧ (g s).isSome then g s else m s := by
  induction b generalizing m with
  | nil => simp [OC.batchSnapResponse, OC.dictUpdate]
  | cons x xs ih =>
    cases hx : g x with
    | none =>
      have hresp : OC.batchSnapResponse g (x :: xs) = OC.batchSnapResponse g xs := by
        simp [OC.batchSnapResponse, hx]
      rw [hresp, ih]
      by_cases hsx : s = x
      · subst hsx
        simp [hx]
      · simp [List.mem_cons, hsx]
    | some v =>
      have hresp : OC.batchSnapResponse g (x :: xs)
          = (x, v) :: OC.batchSnapResponse g xs := by
        simp [OC.batchSnapResponse, hx]
      rw [hresp]
      have hstep : OC.dictUpdate m ((x, v) :: OC.batchSnapResponse g xs)
          = OC.dictUpdate (OC.dictInsert m (x, v)) (OC.batchSnapResponse g xs) := rfl
      rw [hstep, ih]
      by_cases hsx : s = x
      · subst hsx
        simp [OC.dictInsert, hx]
      · simp [OC.dictInsert, hsx, List.mem_cons]

/-- Auxiliary: the snapshot-accumulation fold looks a symbol up to the
provider's data exactly when some non-failed processed batch contains it. -/
theorem allSnaps_foldl_char (g : String → Option OC.Snap) (failed : Nat → Bool)
    (s : String) :
    ∀ (ps : List (Nat × List String)) (m0 : String → Option OC.Snap),
      (ps.foldl
          (fun m p => if failed p.1 then m else OC.dictUpdate m (OC.batchSnapResponse g p.2))
          m0) s
        = if (ps.any (fun p => !failed p.1 && decide (s ∈ p.2))) && (g s).isSome
          then g s else m0 s := by
  intro ps
  induction ps with
  | nil => intro m0; simp
  | cons p ps ih =>
    intro m0
    rw [List.foldl_cons, List.any_cons]
    cases hf : failed p.1 with
    | true =>
      simp [ih]
      simp only [Bool.not_true, Bool.false_and, Bool.false_or]
    | false =>
      by_cases hmem : s ∈ p.2
      · cases hsome : (g s).isSome with
        | true => simp [ih, dictUpdate_batchSnapResponse, hmem, hsome]
        | false => simp [ih, dictUpdate_batchSnapResponse, hmem, hsome]
      · have hd : decide (s ∈ p.2) = false := by simp [hmem]
        simp [ih, dictUpdate_batchSnapResponse, hmem]
        simp only [Bool.not_false, Bool.true_and, hd, Bool.false_or]

/-- The accumulated `all_snaps` dict: a symbol maps to the provider's
snapshot iff some non-failed batch contains it and the provider has data
for it, and to nothing otherwise. -/
theorem allSnaps_char (g : String → Option OC.Snap) (failed : Nat → Bool)
    (symbols : List String) (s : String) :
    OC.allSnaps g failed symbols s
      = if OC.snapHit failed symbols s && (g s).isSome then g s else none := by
  unfold OC.allSnaps OC.snapHit
  rw [allSnaps_foldl_char]

/-- A symbol outside the submitted list is in no batch, so it gets no
snapshot data. -/
theorem allSnaps_none_of_unlisted (g : String → Option OC.Snap)
    (failed : Nat → Bool) (symbols : List String) (s : String)
    (hs : s ∉ symbols) :
    OC.allSnaps g failed symbols s = none := by
  rw [allSnaps_char]
  have hhit : OC.snapHit failed symbols s = false := by
    rw [OC.snapHit]
    by_contra h
    simp only [Bool.not_eq_false, List.any_eq_true, Bool.and_eq_true,
      Bool.not_eq_true', decide_eq_true_eq] at h
    obtain ⟨p, hp, _, hmem⟩ := h
    apply hs
    have hb : p.2 ∈ OC.batches symbols := by
      rcases p with ⟨i, b⟩
      exact List.snd_mem_of_mem_enum hp
    rw [← batches_flatten symbols]
    exact List.mem_flatten.mpr ⟨p.2, hb, hmem⟩
  simp [hhit]

/-- A symbol all of whose containing batches failed gets no snapshot data. -/
theorem allSnaps_none_of_all_failed (g : String → Option OC.Snap)
    (failed : Nat → Bool) (symbols : List String) (s : String)
    (hs : ∀ p ∈ (OC.batches symbols).enum, s ∈ p.2 → failed p.1 = true) :
    OC.allSnaps g failed symbols s = none := by
  rw [allSnaps_char]
  have hhit : OC.snapHit failed symbols s = false := by
    rw [OC.snapHit]
    by_contra h
    simp only [Bool.not_eq_false, List.any_eq_true, Bool.and_eq_true,
      Bool.not_eq_true', decide_eq_true_eq] at h
    obtain ⟨p, hp, hnf, hmem⟩ := h
    rw [hs p hp hmem] at hnf
    exact Bool.noConfusion hnf

  simp [hhit]

/-- A row assembled with no snapshot has all market fields zero. -/
theorem mkRow_none_zeroMarket (t : String) (c : OC.Contract) :
    OC.zeroMarket (OC.mkRow t c none) := by
  simp [OC.mkRow, OC.zeroMarket, pyInt]

end Snapshots

/-- C3: for every sequence of provider pages of sizes `[a1, ..., aN]`
terminated by an absent continuation token — the non-final responses carry
tokens (paginated tuple shape), the final one has none (paginated shape with
a `None` token, or the bare-list shape) — contract discovery accumulates
exactly `a1 + ... + aN` contracts, in page order with within-page order
preserved (the flattening of the pages). -/
theorem C3_pagination {α : Type} (rs : List (OC.PageResult α))
    (hmid : rs.dropLast.all OC.PageResult.hasToken = true)
    (hlast : rs.getLast?.all (fun r => !r.hasToken) = true) :
    OC.paginateE (rs.map Except.ok) = .ok ((rs.map OC.PageResult.page).flatten) ∧
    ((rs.map OC.PageResult.page).flatten).length
      = (rs.map (fun r => r.page.length)).sum := by
  refine ⟨paginateE_ok_of_terminated rs hmid hlast, ?_⟩
  simp [Function.comp_def]

/-- C3, instantiated: three pages of sizes 2, 1, 3 — the first two in the
paginated tuple shape with tokens, the last in the bare-list shape —
accumulate to the 6 contracts in page order. -/
theorem C3_pagination_witness :
    OC.paginateE ([OC.PageResult.paged [1, 2] (some "t1"),
      OC.PageResult.paged [3] (some "t2"),
      OC.PageResult.bare [4, 5, 6]].map (Except.ok (ε := Unit))) =
      .ok [1, 2, 3, 4, 5, 6] :=
  (C3_pagination
    [OC.PageResult.paged [1, 2] (some "t1"), OC.PageResult.paged [3] (some "t2"),
      OC.PageResult.bare [4, 5, 6]]
    (by decide) (by decide)).1

/-- C4: for any list of up to 50 contract identifiers, snapshot enrichment
issues `⌈n/20⌉` batches, each of size at most 20; whether one batch raises
is invisible to the snapshot data — and hence the assembled row — of any
contract whose containing batches are unaffected; and a contract all of
whose containing batches raised gets no snapshot data, hence all-zero
market fields. -/
theorem C4_snapshot_batching (ids : List String) (h50 : ids.length ≤ 50)
    (g : String → Option OC.Snap) (failed failed' : Nat → Bool)
    (ticker : String) (c : OC.Contract) :
    (OC.batches ids).length = (ids.length + 19) / 20 ∧
    (∀ b ∈ OC.batches ids, b.length ≤ 20) ∧
    ((∀ p ∈ (OC.batches ids).enum, c.symbol ∈ p.2 → failed p.1 = failed' p.1) →
      OC.mkRow ticker c (OC.allSnaps g failed ids c.symbol)
        = OC.mkRow ticker c (OC.allSnaps g failed' ids c.symbol)) ∧
    ((∀ p ∈ (OC.batches ids).enum, c.symbol ∈ p.2 → failed p.1 = true) →
      OC.allSnaps g failed ids c.symbol = none ∧
        OC.zeroMarket (OC.mkRow ticker c (OC.allSnaps g failed ids c.symbol))) := by
  refine ⟨batches_length ids, batches_size_le ids, ?_, ?_⟩
  · intro hagree
    have heq : OC.allSnaps g failed ids c.symbol
        = OC.allSnaps g failed' ids c.symbol := by
      rw [allSnaps_char, allSnaps_char]
      have hhit : OC.snapHit failed ids c.symbol
          = OC.snapHit failed' ids c.symbol := by
        rw [OC.snapHit, OC.snapHit, Bool.eq_iff_iff]
        simp only [List.any_eq_true, Bool.and_eq_true, Bool.not_eq_true',
          decide_eq_true_eq]
        constructor
        · rintro ⟨p, hp, hnf, hm⟩
          exact ⟨p, hp, by rw [← hagree p hp hm]; exact hnf, hm⟩
        · rintro ⟨p, hp, hnf, hm⟩
          exact ⟨p, hp, by rw [hagree p hp hm]; exact hnf, hm⟩
      rw [hhit]
    rw [heq]
  · intro hfail
    have hnone := allSnaps_none_of_all_failed g failed ids c.symbol hfail
    exact ⟨hnone, by rw [hnone]; exact mkRow_none_zeroMarket ticker c⟩

/-- C4, instantiated: 45 identifiers are split into exactly 3 batches; with
only batch 1 raising, the contract `"25"` (which sits in batch 1) gets no
snapshot data and all-zero market fields, although the provider holds
non-zero data for every symbol. -/
theorem C4_snapshot_batching_witness :
    (OC.batches w4ids).length = 3 ∧
    OC.allSnaps w4g w4failed w4ids "25" = none ∧
    OC.zeroMarket (OC.mkRow "CALM" w4c (OC.allSnaps w4g w4failed w4ids "25")) := by
  have h := C4_snapshot_batching w4ids (by decide) w4g w4failed w4failed "CALM" w4c
  refine ⟨?_, ?_, ?_⟩
  · rw [h.1]; decide
  · exact (h.2.2.2 (by decide)).1
  · exact (h.2.2.2 (by decide)).2

/-- Auxiliary: an empty discovery result short-circuits to an empty frame. -/
theorem get_snapshot_ok_empty (ticker : String) (p : OC.ProviderA)
    (hd : OC.paginateE p.discovery = .ok []) :
    OC.get_options_chain_snapshot ticker p = .ok [] := by
  unfold OC.get_options_chain_snapshot
  rw [hd]
  rfl

/-- Auxiliary: a non-empty discovery result is assembled into rows against
the snapshot dict built from the first 50 symbols. -/
theorem get_snapshot_ok_cons (ticker : String) (p : OC.ProviderA)
    (c : OC.Contract) (cs : List OC.Contract)
    (hd : OC.paginateE p.discovery = .ok (c :: cs)) :
    OC.get_options_chain_snapshot ticker p
      = .ok (OC.assembleRows ticker (c :: cs)
          (OC.allSnaps p.getSnap p.snapFail
            (((c :: cs).take 50).map (fun x => x.symbol)))) := by
  unfold OC.get_options_chain_snapshot
  rw [hd]
  rfl

/-- C5: Pipeline A row assembly emits exactly one row for every discovered
contract — `rows.length = contracts.length` — in discovery order with no
sorting applied (row `i` carries contract `i`'s identifier, strike and
expiry), and a contract that has no entry in the snapshot dict gets all
seven market fields zero. -/
theorem C5_row_assembly (ticker : String) (p : OC.ProviderA)
    (contracts : List OC.Contract) (rows : List OC.Row)
    (hd : OC.paginateE p.discovery = .ok contracts)
    (hr : OC.get_options_chain_snapshot ticker p = .ok rows) :
    rows.length = contracts.length ∧
    ∀ i (hic : i < contracts.length) (hir : i < rows.length),
      (rows.get ⟨i, hir⟩).option_code = (contracts.get ⟨i, hic⟩).symbol ∧
      (rows.get ⟨i, hir⟩).strike = (contracts.get ⟨i, hic⟩).strike_price ∧
      (rows.get ⟨i, hir⟩).exp_date = (contracts.get ⟨i, hic⟩).expiration_date ∧
      (OC.allSnaps p.getSnap p.snapFail ((contracts.take 50).map (fun c => c.symbol))
          ((contracts.get ⟨i, hic⟩).symbol) = none →
        OC.zeroMarket (rows.get ⟨i, hir⟩)) := by
  cases contracts with
  | nil =>
    rw [get_snapshot_ok_empty ticker p hd] at hr
    have hrows : rows = [] := by
      simpa using hr.symm
    subst hrows
    simp
  | cons c cs =>
    rw [get_snapshot_ok_cons ticker p c cs hd] at hr
    have hrows : rows = OC.assembleRows ticker (c :: cs)
        (OC.allSnaps p.getSnap p.snapFail
          (((c :: cs).take 50).map (fun x => x.symbol))) := by
      simpa using hr.symm
    subst hrows
    refine ⟨by simp [OC.assembleRows], ?_⟩
    intro i hic hir
    have hget : (OC.assembleRows ticker (c :: cs)
        (OC.allSnaps p.getSnap p.snapFail
          (((c :: cs).take 50).map (fun x => x.symbol)))).get ⟨i, hir⟩
        = OC.mkRow ticker ((c :: cs).get ⟨i, hic⟩)
            (OC.allSnaps p.getSnap p.snapFail
              (((c :: cs).take 50).map (fun x => x.symbol))
              (((c :: cs).get ⟨i, hic⟩).symbol)) := by
      simp only [OC.assembleRows, List.get_eq_getElem, List.getElem_map]
    rw [hget]
    refine ⟨rfl, rfl, rfl, ?_⟩
    intro hnone
    rw [hnone]
    exact mkRow_none_zeroMarket ticker _

/-- C5, instantiated: two discovered contracts, a snapshot only for the
first; the pipeline emits exactly two rows and the second (no snapshot
entry) has all market fields zero. -/
theorem C5_row_assembly_witness :
    w5rows.length = w5contracts.length ∧
    OC.zeroMarket (w5rows.get ⟨1, by decide⟩) := by
  have h := C5_row_assembly "V" w5prov w5contracts w5rows rfl rfl
  exact ⟨h.1, (h.2 1 (by decide) (by decide)).2.2.2 (by decide)⟩

/-- C10: only the first 50 discovered contracts are submitted for snapshot
enrichment — the issued batches reassemble exactly the first-50 symbol
list — so a discovered contract at position 51 or later (whose identifier
does not occur among the first 50) gets an emitted row with all seven
market fields zero, whatever snapshot data the provider could supply and
whatever batches fail. -/
theorem C10_snapshot_cap (ticker : String) (p : OC.ProviderA)
    (contracts : List OC.Contract) (rows : List OC.Row) (i : Nat)
    (hd : OC.paginateE p.discovery = .ok contracts)
    (hr : OC.get_options_chain_snapshot ticker p = .ok rows)
    (h50 : 50 ≤ i) (hic : i < contracts.length)
    (hsym : (contracts.get ⟨i, hic⟩).symbol
      ∉ (contracts.take 50).map (fun c => c.symbol)) :
    (OC.batches ((contracts.take 50).map (fun c => c.symbol))).flatten
      = (contracts.take 50).map (fun c => c.symbol) ∧
    rows.length = contracts.length ∧
    ∀ hir : i < rows.length, OC.zeroMarket (rows.get ⟨i, hir⟩) := by
  refine ⟨batches_flatten _, ?_⟩
  cases contracts with
  | nil => simp at hic
  | cons c cs =>
    rw [get_snapshot_ok_cons ticker p c cs hd] at hr
    have hrows : rows = OC.assembleRows ticker (c :: cs)
        (OC.allSnaps p.getSnap p.snapFail
          (((c :: cs).take 50).map (fun x => x.symbol))) := by
      simpa using hr.symm
    subst hrows
    refine ⟨by simp [OC.assembleRows], ?_⟩
    intro hir
    have hget : (OC.assembleRows ticker (c :: cs)
        (OC.allSnaps p.getSnap p.snapFail
          (((c :: cs).take 50).map (fun x => x.symbol)))).get ⟨i, hir⟩
        = OC.mkRow ticker ((c :: cs).get ⟨i, hic⟩)
            (OC.allSnaps p.getSnap p.snapFail
              (((c :: cs).take 50).map (fun x => x.symbol))
              (((c :: cs).get ⟨i, hic⟩).symbol)) := by
      simp only [OC.assembleRows, List.get_eq_getElem, List.getElem_map]
    rw [hget]
    rw [allSnaps_none_of_unlisted _ _ _ _ (by simpa using hsym)]
    exact mkRow_none_zeroMarket ticker _

/-- C10, instantiated: 51 discovered contracts, a non-zero snapshot
available for every symbol, no batch failures — yet the 51st row (index 50)
has all market fields zero. -/
theorem C10_snapshot_cap_witness :
    w10rows.length = w10contracts.length ∧
    OC.zeroMarket (w10rows.get ⟨50, by decide⟩) := by
  have h := C10_snapshot_cap "NFLX" w10prov w10contracts w10rows 50 rfl rfl
    (by decide) (by decide) (by decide)
  exact ⟨h.2.1, h.2.2 (by decide)⟩

/-- C6: the price oracle returns the fast-quote price when present and
positive; falls back to the daily close when the fast value is missing or
non-positive; and when the fast access raises, or the fallback is consulted
and raises, returns the fixed `90.0` — it never propagates an error (its
return type is a plain price, every branch producing a value). -/
theorem C6_price_oracle (p : OC.PriceProvider) (v hq : ℚ) :
    ((p.fast = .ok (some v) ∧ 0 < v) → OC.get_current_price_yf p = v) ∧
    ((p.fast = .ok none ∨ (p.fast = .ok (some v) ∧ v ≤ 0)) →
      p.hist = .ok hq → OC.get_current_price_yf p = hq) ∧
    (p.fast = .error () → OC.get_current_price_yf p = 90) ∧
    ((p.fast = .ok none ∨ (p.fast = .ok (some v) ∧ v ≤ 0)) →
      p.hist = .error () → OC.get_current_price_yf p = 90) := by
  refine ⟨?_, ?_, ?_, ?_⟩
  · rintro ⟨hf, hv⟩
    have hnle : ¬ v ≤ 0 := not_le.mpr hv
    simp [OC.get_current_price_yf, OC.priceBody, hf, hnle]
  · rintro (hf | ⟨hf, hv⟩) hh
    · simp [OC.get_current_price_yf, OC.priceBody, hf, hh]
    · simp [OC.get_current_price_yf, OC.priceBody, hf, hv, hh]
  · intro hf
    simp [OC.get_current_price_yf, OC.priceBody, hf]
  · rintro (hf | ⟨hf, hv⟩) hh
    · simp [OC.get_current_price_yf, OC.priceBody, hf, hh]
    · simp [OC.get_current_price_yf, OC.priceBody, hf, hv, hh]

/-- C6, instantiated: a positive fast price `5` is returned as-is; a fast
price `0` with daily close `7` yields `7`; a raising fast access yields
`90`; a missing fast price with a raising daily close yields `90`. -/
theorem C6_price_oracle_witness :
    OC.get_current_price_yf { fast := .ok (some 5), hist := .ok 7 } = 5 ∧
    OC.get_current_price_yf { fast := .ok (some 0), hist := .ok 7 } = 7 ∧
    OC.get_current_price_yf { fast := .error (), hist := .ok 7 } = 90 ∧
    OC.get_current_price_yf { fast := .ok none, hist := .error () } = 90 :=
  ⟨(C6_price_oracle { fast := .ok (some 5), hist := .ok 7 } 5 7).1
      ⟨rfl, by norm_num⟩,
    (C6_price_oracle { fast := .ok (some 0), hist := .ok 7 } 0 7).2.1
      (Or.inr ⟨rfl, le_refl 0⟩) rfl,
    (C6_price_oracle { fast := .error (), hist := .ok 7 } 0 7).2.2.1 rfl,
    (C6_price_oracle { fast := .ok none, hist := .error () } 0 7).2.2.2
      (Or.inl rfl) rfl⟩

/-- Auxiliary: when its discovery step succeeds, the per-ticker Pipeline A
fetch succeeds (the price oracle and the per-batch handlers never let an
exception escape). -/
theorem get_snapshot_isOk (ticker : String) (p : OC.ProviderA)
    (cs : List OC.Contract)
    (hd : OC.paginateE p.discovery = .ok cs) :
    ∃ rows, OC.get_options_chain_snapshot ticker p = .ok rows := by
  cases cs with
  | nil => exact ⟨[], get_snapshot_ok_empty ticker p hd⟩
  | cons c cs => exact ⟨_, get_snapshot_ok_cons ticker p c cs hd⟩

/-- C2 counterexample: a provider whose contract discovery raises for the
first ticker makes the whole Pipeline A batch abort — the run returns the
error and the second ticker is never processed — refuting the claim that
no failure in any per-ticker step can abort the batch. -/
theorem C2_counterexample :
    OC.fetch_multiple_tickers (fun _ => w2prov) ["CALM", "RKLB"] = .error () := rfl

/-- C2, amended: every failure other than Pipeline A's contract discovery
is contained. When each ticker's discovery succeeds — whatever the price
data, snapshot data and snapshot-batch failures — Pipeline A's batch
orchestrator completes with one event per ticker; and Pipeline B's batch
orchestrator always completes with one event per ticker, whatever fails
(its per-ticker fetch catches everything). A discovery failure, however,
propagates and aborts the Pipeline A batch (see the counterexample). -/
theorem C2_error_containment_amended (provA : String → OC.ProviderA)
    (tickersA : List String)
    (hA : ∀ t ∈ tickersA, ∃ cs, OC.paginateE (provA t).discovery = .ok cs)
    (provB : String → YF.ProviderB) (now : ℚ) (tickersB : List String) :
    (OC.fetch_multiple_tickers provA tickersA).map List.length
        = .ok tickersA.length ∧
    (YF.run_multi_ticker_scrape provB now tickersB).length = tickersB.length := by
  constructor
  · induction tickersA with
    | nil => rfl
    | cons t ts ih =>
      obtain ⟨cs, hcs⟩ := hA t (List.mem_cons_self t ts)
      obtain ⟨rows, hrows⟩ := get_snapshot_isOk t (provA t) cs hcs
      have hih := ih (fun u hu => hA u (List.mem_cons_of_mem t hu))
      cases hf : OC.fetch_multiple_tickers provA ts with
      | error e =>
        rw [hf] at hih
        simp [Except.map] at hih
      | ok evs =>
        rw [hf] at hih
        have hlen : evs.length = ts.length := by
          simpa [Except.map] using hih
        have hstep : OC.fetch_multiple_tickers provA (t :: ts)
            = .ok ((if rows.isEmpty then OC.EventA.noData t
                else OC.EventA.saved t rows) :: evs) := by
          unfold OC.fetch_multiple_tickers
          rw [hrows, hf]
          rfl
        rw [hstep]
        simp [Except.map, hlen]
  · simp [YF.run_multi_ticker_scrape]

/-- C2 amended, instantiated: with discovery succeeding for both tickers,
the Pipeline A batch completes with 2 events, and a Pipeline B run over one
ticker completes with 1 event. -/
theorem C2_error_containment_witness :
    (OC.fetch_multiple_tickers (fun _ => w5prov) ["CALM", "RKLB"]).map List.length
        = .ok 2 ∧
    (YF.run_multi_ticker_scrape (fun _ => w2provB) 0 ["CALM"]).length = 1 :=
  C2_error_containment_amended (fun _ => w5prov) ["CALM", "RKLB"]
    (fun _ _ => ⟨w5contracts, rfl⟩) (fun _ => w2provB) 0 ["CALM"]

/-- C9: a ticker whose fetch yields an empty result is logged as no-data —
no CSV write event — and the batch moves on to the remaining tickers, with
no exception, in both pipelines; in particular a Pipeline B provider
reporting zero expirations yields the empty frame. -/
theorem C9_empty_result (t : String) (ts : List String)
    (provA : String → OC.ProviderA)
    (hA : OC.paginateE ((provA t).discovery) = .ok [])
    (provB : String → YF.ProviderB) (now : ℚ)
    (hB : YF.get_option_chain t (provB t) now (some 45) = []) :
    OC.fetch_multiple_tickers provA (t :: ts)
        = (OC.fetch_multiple_tickers provA ts).map
            (fun evs => OC.EventA.noData t :: evs) ∧
    (∀ pB : YF.ProviderB, pB.expirations = [] →
      YF.get_option_chain t pB now (some 45) = []) ∧
    YF.run_multi_ticker_scrape provB now (t :: ts)
        = YF.EventB.noData t :: YF.run_multi_ticker_scrape provB now ts := by
  refine ⟨?_, ?_, ?_⟩
  · have hstep := get_snapshot_ok_empty t (provA t) hA
    cases hf : OC.fetch_multiple_tickers provA ts with
    | error e =>
      unfold OC.fetch_multiple_tickers
      rw [hstep, hf]
      rfl
    | ok evs =>
      unfold OC.fetch_multiple_tickers
      rw [hstep, hf]
      rfl
  · intro pB hpe
    unfold YF.get_option_chain
    rw [hpe]
    cases pB.tickerFail <;> rfl
  · simp [YF.run_multi_ticker_scrape, hB]

/-- C9, instantiated: discovery returns zero contracts for ticker `ONDS`
in Pipeline A, and the Pipeline B provider reports no expirations — in both
pipelines the event for `ONDS` is no-data and the batch continues to `V`. -/
theorem C9_empty_result_witness :
    OC.fetch_multiple_tickers (fun _ => w9provA) ["ONDS", "V"]
        = (OC.fetch_multiple_tickers (fun _ => w9provA) ["V"]).map
            (fun evs => OC.EventA.noData "ONDS" :: evs) ∧
    YF.run_multi_ticker_scrape (fun _ => w9provB) 0 ["ONDS", "V"]
        = YF.EventB.noData "ONDS"
            :: YF.run_multi_ticker_scrape (fun _ => w9provB) 0 ["V"] := by
  have h := C9_empty_result "ONDS" ["V"] (fun _ => w9provA) rfl
    (fun _ => w9provB) 0 rfl
  exact ⟨h.1, h.2.2⟩

/-- Auxiliary: the truncation of a non-negative decimal is non-negative. -/
theorem pyInt_nonneg (q : ℚ) (h : 0 ≤ q) : 0 ≤ pyInt q := by
  unfold pyInt
  exact Int.tdiv_nonneg (Rat.num_nonneg.mpr h) (Int.natCast_nonneg q.den)

/-- C7: the expiration filter keeps exactly the dates at most `horizon`
days ahead — the boundary day is included, since its midnight instant is
never after `now + horizon` days — and on expirations at `today + 5`,
`today + 40` and `today + 50` days with a 45-day horizon exactly the first
two are kept, in order. `t` is the current time of day in seconds. -/
theorem C7_expiration_filter (exps : List Nat) (today m : Nat) (t : ℚ)
    (h0 : 0 ≤ t) (h1 : t < 86400) :
    YF.filterExpirations exps ((today : ℚ) * 86400 + t) (some m)
        = exps.filter (fun d => d ≤ today + m) ∧
    YF.filterExpirations [today + 5, today + 40, today + 50]
        ((today : ℚ) * 86400 + t) (some 45)
      = [today + 5, today + 40] := by
  have hgen : ∀ (l : List Nat) (mm : Nat),
      YF.filterExpirations l ((today : ℚ) * 86400 + t) (some mm)
        = l.filter (fun d => d ≤ today + mm) := by
    intro l mm
    unfold YF.filterExpirations
    refine List.filter_congr ?_
    intro d _
    refine decide_eq_decide.mpr ?_
    constructor
    · intro hle
      by_contra hgt
      push_neg at hgt
      have hd : ((today + mm + 1 : Nat) : ℚ) ≤ (d : ℚ) := by exact_mod_cast hgt
      push_cast at hd
      nlinarith
    · intro hle
      have hd : (d : ℚ) ≤ (today : ℚ) + (mm : ℚ) := by exact_mod_cast hle
      nlinarith
  refine ⟨hgen exps m, ?_⟩
  rw [hgen [today + 5, today + 40, today + 50] 45]
  simp [List.filter_cons, Nat.add_le_add_iff_left]

/-- C7, instantiated: with `now` 100 seconds into day 700, the expirations
at days 705, 740 and 750 filtered by a 45-day horizon keep exactly
705 and 740. -/
theorem C7_expiration_filter_witness :
    YF.filterExpirations [705, 740, 750] (((700 : Nat) : ℚ) * 86400 + 100)
        (some 45) = [705, 740] := by
  have h := (C7_expiration_filter [] 700 45 100 (by norm_num) (by norm_num)).2
  simpa using h

/-- C8 counterexample: a provider-supplied negative volume passes through
Pipeline B's post-processing unchanged — the emitted row has
`volume = -1 < 0` — refuting the claim that every output row's volume and
open interest are non-negative. -/
theorem C8_counterexample :
    ((YF.postProcess w8negRows).map
        (fun q => (q.volume, q.open_interest, q.iv))) = [(-1, 2, 0)] ∧
    ¬ (0 ≤ (-1 : Int)) := by
  constructor
  · decide
  · decide

/-- C8, amended: post-processing drops exactly the rows whose strike is
missing; in every output row `iv`, `volume` and `open_interest` are the
input values with a missing value coerced to 0, `volume` and
`open_interest` truncated to integers — and they are non-negative whenever
the provider-supplied values are (unconditional non-negativity fails, see
the counterexample). -/
theorem C8_postprocess_amended (rows : List YF.RawRow) :
    (YF.postProcess rows).length
        = (rows.filter (fun r => r.strike.isSome)).length ∧
    ∀ q ∈ YF.postProcess rows, ∃ r ∈ rows,
      r.strike = some q.strike ∧
      q.iv = r.iv.getD 0 ∧
      q.volume = pyInt (r.volume.getD 0) ∧
      q.open_interest = pyInt (r.open_interest.getD 0) ∧
      (r.iv = none → q.iv = 0) ∧
      (r.volume = none → q.volume = 0) ∧
      (r.open_interest = none → q.open_interest = 0) ∧
      ((∀ v, r.volume = some v → 0 ≤ v) → 0 ≤ q.volume) ∧
      ((∀ v, r.open_interest = some v → 0 ≤ v) → 0 ≤ q.open_interest) := by
  constructor
  · induction rows with
    | nil => rfl
    | cons r rs ih =>
      cases hs : r.strike with
      | none =>
        simp only [YF.postProcess, List.filterMap_cons, YF.postRow, hs,
          Option.map_none, List.filter_cons]
        simpa [hs] using ih
      | some s =>
        simp only [YF.postProcess, List.filterMap_cons, YF.postRow, hs,
          Option.map_some, List.filter_cons]
        simpa [hs] using ih
  · intro q hq
    obtain ⟨r, hr, hpost⟩ := List.mem_filterMap.mp hq
    refine ⟨r, hr, ?_⟩
    cases hs : r.strike with
    | none =>
      rw [YF.postRow, hs] at hpost
      simp at hpost
    | some s =>
      rw [YF.postRow, hs] at hpost
      rw [Option.map_some'] at hpost
      have hq2 : _ = q := Option.some.inj hpost
      subst hq2
      refine ⟨rfl, rfl, rfl, rfl, ?_, ?_, ?_, ?_, ?_⟩
      · intro hiv; simp [hiv]
      · intro hv; simp [hv, pyInt]
      · intro ho; simp [ho, pyInt]
      · intro hv
        apply pyInt_nonneg
        cases hvv : r.volume with
        | none => simp [hvv]
        | some v => simpa [hvv] using hv v hvv
      · intro ho
        apply pyInt_nonneg
        cases hoo : r.open_interest with
        | none => simp [hoo]
        | some v => simpa [hoo] using ho v hoo

/-- C8 amended, instantiated: of two raw rows, the one with a missing
strike is dropped (one output row remains), and in that output row the
missing volume and iv became 0 while the fractional open interest `5/2`
was truncated to the integer 2. -/
theorem C8_postprocess_witness :
    (YF.postProcess w8rows).length = 1 ∧
    (YF.postProcess w8rows).map (fun q => (q.volume, q.open_interest, q.iv))
      = [(0, 5, 0)] := by
  refine ⟨(C8_postprocess_amended w8rows).1.trans (by decide), by decide⟩

/-- Auxiliary: a discovery exception propagates out of the per-ticker
Pipeline A fetch. -/
theorem get_snapshot_error (ticker : String) (p : OC.ProviderA)
    (hd : OC.paginateE p.discovery = .error ()) :
    OC.get_options_chain_snapshot ticker p = .error () := by
  unfold OC.get_options_chain_snapshot
  rw [hd]
  rfl

/-- Auxiliary: the assembled row's `mid_price` is the guarded midpoint of
its own `bid` and `ask` fields. -/
theorem mkRow_mid_price (t : String) (c : OC.Contract) (s : Option OC.Snap) :
    (OC.mkRow t c s).mid_price
      = if 0 < (OC.mkRow t c s).bid ∨ 0 < (OC.mkRow t c s).ask
        then ((OC.mkRow t c s).bid + (OC.mkRow t c s).ask) / 2 else 0 := rfl

/-- Auxiliary: every row Pipeline A emits satisfies the guarded-midpoint
invariant. -/
theorem mem_snapshot_rows_mid (ticker : String) (p : OC.ProviderA)
    (rows : List OC.Row)
    (hr : OC.get_options_chain_snapshot ticker p = .ok rows)
    (r : OC.Row) (hmem : r ∈ rows) :
    r.mid_price = if 0 < r.bid ∨ 0 < r.ask then (r.bid + r.ask) / 2 else 0 := by
  cases hd : OC.paginateE p.discovery with
  | error e =>
    cases e
    rw [get_snapshot_error ticker p hd] at hr
    exact absurd hr (by simp)
  | ok cs =>
    cases cs with
    | nil =>
      rw [get_snapshot_ok_empty ticker p hd] at hr
      have hrows : rows = [] := by simpa using hr.symm
      subst hrows
      simp at hmem
    | cons c cs' =>
      rw [get_snapshot_ok_cons ticker p c cs' hd] at hr
      have hrows : rows = OC.assembleRows ticker (c :: cs')
          (OC.allSnaps p.getSnap p.snapFail
            (((c :: cs').take 50).map (fun x => x.symbol))) := by
        simpa using hr.symm
      subst hrows
      simp only [OC.assembleRows] at hmem
      obtain ⟨c0, _, hrc⟩ := List.mem_map.mp hmem
      rw [← hrc]
      exact mkRow_mid_price ticker c0 _

/-- Auxiliary: membership in `if b then [] else l` implies membership
in `l`. -/
theorem mem_of_mem_ite_nil {α : Type} (q : α) (b : Bool) (l : List α)
    (h : q ∈ (if b then ([] : List α) else l)) : q ∈ l := by
  cases b with
  | true => simp at h
  | false => simpa using h

/-- Auxiliary: every row Pipeline B emits carries the unconditional pandas
midpoint: the average when both `bid` and `ask` are present, and a missing
value (`NaN`) when either is missing. -/
theorem mem_get_option_chain_mid (tk : String) (pB : YF.ProviderB) (now : ℚ)
    (md : Option Nat) (q : YF.PostRow)
    (hq : q ∈ YF.get_option_chain tk pB now md) :
    q.mid_price = match q.bid, q.ask with
      | some b, some a => some ((b + a) / 2)
      | _, _ => none := by
  simp only [YF.get_option_chain] at hq
  have hq1 := mem_of_mem_ite_nil q _ _ hq
  have hq2 := mem_of_mem_ite_nil q _ _ hq1
  have hq3 := mem_of_mem_ite_nil q _ _ hq2
  simp only [YF.postProcess] at hq3
  obtain ⟨raw, hraw, hpost⟩ := List.mem_filterMap.mp hq3
  have hmid : q.mid_price = raw.mid_price ∧ q.bid = raw.bid ∧ q.ask = raw.ask := by
    cases hs : raw.strike with
    | none =>
      rw [YF.postRow, hs] at hpost
      simp at hpost
    | some s =>
      rw [YF.postRow, hs, Option.map_some'] at hpost
      have hq4 : _ = q := Option.some.inj hpost
      subst hq4
      exact ⟨rfl, rfl, rfl⟩
  obtain ⟨chunk, hchunk, hrawin⟩ := List.mem_flatten.mp hraw
  obtain ⟨e, _, hmatch⟩ := List.mem_filterMap.mp hchunk
  have hbuildRaw : ∃ ty ex c, raw = YF.buildRow tk ty ex c := by
    cases hce : pB.chains e with
    | error u => rw [hce] at hmatch; simp at hmatch
    | ok d =>
      rw [hce] at hmatch
      have hchunk2 : _ = chunk := Option.some.inj hmatch
      subst hchunk2
      simp only [YF.mkExpRows, List.mem_append, List.mem_map] at hrawin
      rcases hrawin with ⟨c, _, hbuild⟩ | ⟨c, _, hbuild⟩
      · exact ⟨"CALL", e, c, hbuild.symm⟩
      · exact ⟨"PUT", e, c, hbuild.symm⟩
  obtain ⟨ty, ex, c, hbuild⟩ := hbuildRaw
  rw [hmid.1, hmid.2.1, hmid.2.2, hbuild]
  rfl

/-- C1 counterexample: a Pipeline B provider row with a missing bid next to
ask 5 produces an emitted row whose `mid_price` is missing (`NaN`) — neither
`0` nor a midpoint — refuting the claim that `mid_price` is 0 whenever bid
or ask is missing from the provider data. -/
theorem C1_counterexample :
    ((YF.get_option_chain "UBER" w1prov 0 none).map
        (fun q => (q.bid, q.ask, q.mid_price))) = [(none, some 5, none)] ∧
    (none : Option ℚ) ≠ some 0 := by
  constructor
  · decide
  · decide

/-- C1, amended: in Pipeline A every emitted row has
`mid_price = (bid+ask)/2` if `bid > 0` or `ask > 0` and `0` otherwise,
missing provider values having been coerced to 0 beforehand; in Pipeline B
`mid_price` is the unconditional column average — the midpoint when both
`bid` and `ask` are present (hence `0` when both are 0), and missing
(`NaN`), not `0`, when either is missing. -/
theorem C1_mid_price_amended (ticker : String) (p : OC.ProviderA)
    (rows : List OC.Row)
    (hr : OC.get_options_chain_snapshot ticker p = .ok rows)
    (tk : String) (pB : YF.ProviderB) (now : ℚ) (md : Option Nat) :
    (∀ r ∈ rows,
      r.mid_price = if 0 < r.bid ∨ 0 < r.ask then (r.bid + r.ask) / 2 else 0) ∧
    (∀ q ∈ YF.get_option_chain tk pB now md,
      q.mid_price = match q.bid, q.ask with
        | some b, some a => some ((b + a) / 2)
        | _, _ => none) :=
  ⟨fun r hmem => mem_snapshot_rows_mid ticker p rows hr r hmem,
    fun q hq => mem_get_option_chain_mid tk pB now md q hq⟩

/-- C1 amended, instantiated: the Pipeline A row for the snapshotted
contract (bid 3, ask 4) has midpoint `7/2`; the Pipeline B row for chain
data with bid 1 and ask 2 has midpoint `3/2`. -/
theorem C1_mid_price_witness :
    (w5rows.get ⟨0, by decide⟩).mid_price = 7 / 2 ∧
    ((YF.get_option_chain "CALM" w2provB 0 none).get ⟨0, by decide⟩).mid_price
      = some (3 / 2) := by
  have h := C1_mid_price_amended "V" w5prov w5rows rfl "CALM" w2provB 0 none
  constructor
  · have h1 := h.1 (w5rows.get ⟨0, by decide⟩) (List.get_mem w5rows 0 (by decide))
    have hb : (w5rows.get ⟨0, by decide⟩).bid = 3 := rfl
    have ha : (w5rows.get ⟨0, by decide⟩).ask = 4 := rfl
    rw [h1, hb, ha]
    norm_num
  · have h2 := h.2 ((YF.get_option_chain "CALM" w2provB 0 none).get ⟨0, by decide⟩)
      (List.get_mem _ 0 (by decide))
    have hb : ((YF.get_option_chain "CALM" w2provB 0 none).get ⟨0, by decide⟩).bid
        = some 1 := rfl
    have ha : ((YF.get_option_chain "CALM" w2provB 0 none).get ⟨0, by decide⟩).ask
        = some 2 := rfl
    rw [h2, hb, ha]
    norm_num
